import Mathlib

/-!
Verification of the ESSALUD research-project dashboard core
(src/dashboard_essalud.py): the pipe-delimited record parser, the coarse
status classification used by the metrics panel, the value-count
aggregations, the sidebar filter composition, and the kanban grouping.

Text is modelled as lists of characters; the Python string operations
used by the source (strip, split, startswith, substring containment,
case folding) are embedded explicitly so that each Lean definition can
be compared line by line with the Python it translates.
-/

namespace Dashboard

/-- Text values: Python strings modelled as lists of characters. -/
abbrev Str := List Char

/-- The characters removed by Python str.strip (ASCII whitespace). -/
def isPySpace (c : Char) : Bool :=
  c = ' ' || c = '\t' || c = '\n' || c = '\r' || c = '\x0b' || c = '\x0c'

/-- Python str.strip: drop leading and trailing whitespace. -/
def pyStrip (s : Str) : Str :=
  ((s.dropWhile isPySpace).reverse.dropWhile isPySpace).reverse

/-- Python str.split(sep) for a one-character separator: consecutive
separators yield empty pieces and the result is always nonempty. -/
def pySplit (sep : Char) : Str → List Str
  | [] => [[]]
  | c :: rest =>
    match pySplit sep rest with
    | [] => [[]]
    | r :: rs => if c = sep then [] :: r :: rs else (c :: r) :: rs

/-- Case folding as performed by re.IGNORECASE, restricted to the
alphabet that occurs in this program (ASCII plus the accented Spanish
capitals appearing in the data and patterns). -/
def pyLower (c : Char) : Char :=
  if c = 'Á' then 'á' else if c = 'É' then 'é' else if c = 'Í' then 'í'
  else if c = 'Ó' then 'ó' else if c = 'Ú' then 'ú' else if c = 'Ñ' then 'ñ'
  else c.toLower

/-- Lowercase an entire string (Python str.lower on this alphabet). -/
def lowerStr (s : Str) : Str := s.map pyLower

/-- beginsWith pat s is true when s starts with pat
(Python s.startswith(pat)). -/
def beginsWith : Str → Str → Bool
  | [], _ => true
  | _ :: _, [] => false
  | a :: as, b :: bs => decide (a = b) && beginsWith as bs

/-- containsSub t pat: pat occurs as a contiguous substring of t
(Python pat in t, or re.search of a literal pattern). -/
def containsSub : Str → Str → Bool
  | [], pat => pat.isEmpty
  | c :: rest, pat => beginsWith pat (c :: rest) || containsSub rest pat

/-- containsSeq t a b: some occurrence of a in t is followed, at or
after its end, by an occurrence of b.  This is re.search of the
pattern a.*b on a single line. -/
def containsSeq : Str → Str → Str → Bool
  | [], a, b => a.isEmpty && b.isEmpty
  | c :: rest, a, b =>
    (beginsWith a (c :: rest) && containsSub ((c :: rest).drop a.length) b)
      || containsSeq rest a b

/-- The named fields of one parsed row (everything except the id),
in the positional order of dashboard_essalud.py lines 72-80. -/
structure Row where
  priority_line : Str
  manager : Str
  network : Str
  study : Str
  status : Str
  data_support : Str
  principal_investigator : Str
  co_investigators : Str
  national_network : Str
deriving DecidableEq, Repr

/-- A retained row together with its 1-based sequential id. -/
structure Record extends Row where
  id : Nat
deriving DecidableEq, Repr

/-- The separator marker tested by priority_line.startswith in the
source (a run of three dashes). -/
def dashMarker : Str := ['-', '-', '-']

/-- Field extraction from the split-and-stripped pieces of a line,
mirroring lines 72-80 of the source: piece k is taken when it exists
and defaults to the empty string otherwise, and each piece is stripped
again exactly as the source does. -/
def mkRow (parts : List Str) : Row :=
  { priority_line := pyStrip (parts.getD 1 [])
    manager := pyStrip (parts.getD 2 [])
    network := pyStrip (parts.getD 3 [])
    study := pyStrip (parts.getD 4 [])
    status := pyStrip (parts.getD 5 [])
    data_support := pyStrip (parts.getD 6 [])
    principal_investigator := pyStrip (parts.getD 7 [])
    co_investigators := pyStrip (parts.getD 8 [])
    national_network := pyStrip (parts.getD 9 []) }

/-- Processing of one non-header line, mirroring the body of the loop
in load_data (lines 68-95): the line must be non-blank and contain the
pipe delimiter, must split into at least 9 stripped pieces, and the
resulting row is kept only when priority_line and study are non-empty
and priority_line does not start with the dash marker. -/
def parseLine (line : Str) : Option Row :=
  if pyStrip line ≠ [] ∧ '|' ∈ line then
    if 9 ≤ ((pySplit '|' line).map pyStrip).length then
      if (mkRow ((pySplit '|' line).map pyStrip)).priority_line ≠ [] ∧
          (mkRow ((pySplit '|' line).map pyStrip)).study ≠ [] ∧
          beginsWith dashMarker
            ((mkRow ((pySplit '|' line).map pyStrip)).priority_line) = false then
        some (mkRow ((pySplit '|' line).map pyStrip))
      else none
    else none
  else none

/-- Sequential id assignment: the k-th row of the list receives id
n + k, modelling id = len(data) + 1 at each append. -/
def numberFrom (n : Nat) : List Row → List Record
  | [] => []
  | r :: rest => { toRow := r, id := n } :: numberFrom (n + 1) rest

/-- load_data on the lines of the source file: skip the first two
header lines, process each remaining line, keep the retained rows in
file order and number them from 1. -/
def load_data (lines : List Str) : List Record :=
  numberFrom 1 ((lines.drop 2).filterMap parseLine)

/-- The outer try/except of load_data: when the data source cannot be
opened or read (modelled as a missing line list) the handler shows a
user-visible error notice and returns an empty record set; otherwise
the parsed records are returned with no notice.  The Bool is true
exactly when the notice is shown. -/
def load_data_checked (source : Option (List Str)) : List Record × Bool :=
  match source with
  | none => ([], true)
  | some lines => (load_data lines, false)

/-- The Active test of create_metrics (line 115): case-insensitive
re.search of Ejecucion, Ejecución, Enviado followed by Comité, or
Validacion, against the status string. -/
def matchesActive (status : Str) : Bool :=
  containsSub (lowerStr status) ("ejecucion".data)
    || containsSub (lowerStr status) ("ejecución".data)
    || containsSeq (lowerStr status) ("enviado".data) ("comité".data)
    || containsSub (lowerStr status) ("validacion".data)

/-- The Completed test of create_metrics (line 124): case-insensitive
re.search of Reporte followed by Resultado, Completo (the source lists
the pattern twice in the two letter cases, which coincide under case
folding), or IRRI followed by completo. -/
def matchesCompleted (status : Str) : Bool :=
  containsSeq (lowerStr status) ("reporte".data) ("resultado".data)
    || containsSub (lowerStr status) ("completo".data)
    || containsSeq (lowerStr status) ("irri".data) ("completo".data)

/-- Records counted by the Active-projects metric. -/
def active_projects (rs : List Record) : Nat :=
  (rs.filter (fun r => matchesActive r.status)).length

/-- Records counted by the Completed-projects metric. -/
def completed_projects (rs : List Record) : Nat :=
  (rs.filter (fun r => matchesCompleted r.status)).length

/-- The residual Other bucket of the coarse classification: a status
matching neither metric pattern set. -/
def statusOther (s : Str) : Bool := !matchesActive s && !matchesCompleted s

/-- Outcome of rendering the two percentage metrics of create_metrics. -/
inductive ViewOutcome where
  /-- Both percentages were computed and displayed. -/
  | shown (activePct completedPct : Rat)
  /-- main returned early with the could-not-load notice. -/
  | emptyNotice
  /-- Python raised ZeroDivisionError inside create_metrics. -/
  | zeroDivCrash
deriving DecidableEq, Repr

/-- The percentage computations of create_metrics (lines 119 and 128):
active / len(df) * 100 and completed / len(df) * 100.  Python raises
ZeroDivisionError when len(df) = 0, so that case is modelled
explicitly; real division is modelled by exact rationals. -/
def create_metrics_pcts (rs : List Record) : ViewOutcome :=
  if rs.length = 0 then ViewOutcome.zeroDivCrash
  else
    ViewOutcome.shown
      ((active_projects rs : Rat) / (rs.length : Rat) * 100)
      ((completed_projects rs : Rat) / (rs.length : Rat) * 100)

/-- The sentinel of the priority-line and network filters. -/
def todas : Str := "Todas".data

/-- The sentinel of the status filter. -/
def todos : Str := "Todos".data

/-- One sidebar filter: the repeated pattern of main (lines 467-474);
when the selection differs from the sentinel, keep the rows whose
field equals the selection, otherwise impose no restriction. -/
def applyEq (field : Record → Str) (sentinel sel : Str)
    (rs : List Record) : List Record :=
  if sel = sentinel then rs else rs.filter (fun r => decide (field r = sel))

/-- The filter section of main: priority line, then status, then
network, each guarded by its sentinel. -/
def applyFilters (selP selS selN : Str) (rs : List Record) : List Record :=
  applyEq (fun r => r.network) todas selN
    (applyEq (fun r => r.status) todos selS
      (applyEq (fun r => r.priority_line) todas selP rs))

/-- The metrics path of main: an empty base set returns early with a
notice (line 445), otherwise create_metrics runs on the filtered set. -/
def main_view (rs : List Record) (selP selS selN : Str) : ViewOutcome :=
  if rs.isEmpty then ViewOutcome.emptyNotice
  else create_metrics_pcts (applyFilters selP selS selN rs)

/-- Number of occurrences of a value in a list of strings. -/
def cnt (v : Str) (xs : List Str) : Nat :=
  (xs.filter (fun x => decide (x = v))).length

/-- Distinct values in first-seen order: the key order of a pandas
hashtable (Series.unique, and the key set of value_counts). -/
def dedupFirst : List Str → List Str
  | [] => []
  | x :: rest => x :: (dedupFirst rest).filter (fun y => decide (y ≠ x))

/-- Each distinct value with its count, keys in first-seen order. -/
def firstSeenCounts (xs : List Str) : List (Str × Nat) :=
  (dedupFirst xs).map (fun v => (v, cnt v xs))

/-- Comparison used to order value counts: descending by count. -/
def countGE (p q : Str × Nat) : Prop := q.2 ≤ p.2

instance : DecidableRel countGE := fun p q => Nat.decLe q.2 p.2

instance : IsTotal (Str × Nat) countGE :=
  ⟨fun a b => Nat.le_total b.2 a.2⟩

instance : IsTrans (Str × Nat) countGE :=
  ⟨fun _ _ _ hab hbc => Nat.le_trans hbc hab⟩

/-- pandas Series.value_counts: count each distinct value and order the
pairs by descending count; ties keep first-seen order (modelled by a
stable insertion sort over the insertion-ordered counts). -/
def value_counts (xs : List Str) : List (Str × Nat) :=
  List.insertionSort countGE (firstSeenCounts xs)

/-- priority_counts of create_priority_chart (line 141). -/
def priority_counts (rs : List Record) : List (Str × Nat) :=
  value_counts (rs.map (fun r => r.priority_line))

/-- status_counts of create_status_chart (line 161). -/
def status_counts (rs : List Record) : List (Str × Nat) :=
  value_counts (rs.map (fun r => r.status))

/-- The validity test of create_managers_chart (lines 204-208): the
manager value is non-empty and does not contain the redaction token
xxxxx as a case-insensitive substring.  All parsed manager values are
present strings, so the notna test always passes. -/
def validManager (m : Str) : Bool :=
  !m.isEmpty && !containsSub (lowerStr m) ("xxxxx".data)

/-- manager_counts of create_managers_chart (line 210): value counts of
the manager field over the validity-filtered records. -/
def manager_counts (rs : List Record) : List (Str × Nat) :=
  value_counts ((rs.filter (fun r => validManager r.manager)).map
    (fun r => r.manager))

/-- get_status_color of create_kanban_board (lines 238-257): ordered
case-insensitive keyword checks, first match wins. -/
def get_status_color (status : Str) : String :=
  if containsSub (lowerStr status) ("elaboración".data)
      || containsSub (lowerStr status) ("elaboracion".data) then "#FFE4B5"
  else if containsSub (lowerStr status) ("aprobado".data)
      || containsSub (lowerStr status) ("comité".data) then "#98FB98"
  else if containsSub (lowerStr status) ("ejecución".data)
      || containsSub (lowerStr status) ("ejecucion".data) then "#90EE90"
  else if containsSub (lowerStr status) ("completo".data)
      || containsSub (lowerStr status) ("rri".data) then "#87CEEB"
  else if containsSub (lowerStr status) ("autorizacion".data)
      || containsSub (lowerStr status) ("gerencia".data) then "#FFB6C1"
  else if containsSub (lowerStr status) ("validacion".data) then "#DDA0DD"
  else if containsSub (lowerStr status) ("espera".data)
      || containsSub (lowerStr status) ("respuesta".data) then "#F0E68C"
  else if containsSub (lowerStr status) ("manuscrito".data) then "#DDA0DD"
  else "#E6E6FA"

/-- The grouping part of create_kanban_board (lines 234-269): for each
distinct status in first-seen order, the group of records carrying
exactly that status, kept only when nonempty. -/
def create_kanban_board (rs : List Record) : List (Str × List Record) :=
  (dedupFirst (rs.map (fun r => r.status))).filterMap (fun s =>
    if (rs.filter (fun r => decide (r.status = s))).isEmpty then none
    else some (s, rs.filter (fun r => decide (r.status = s))))

/-- The column-color map of create_kanban_board (lines 260-262). -/
def kanban_columns (rs : List Record) : List (Str × String) :=
  (dedupFirst (rs.map (fun r => r.status))).map
    (fun s => (s, get_status_color s))

/-- Convenience constructor for concrete records in the witnesses. -/
def mkRec (i : Nat) (pl mg nw st : String) : Record :=
  { id := i, priority_line := pl.data, manager := mg.data,
    network := nw.data, study := ['s'], status := st.data,
    data_support := [], principal_investigator := [],
    co_investigators := [], national_network := [] }

/-- A file whose single data row carries a status matching both the
Active and the Completed pattern sets. -/
def c1Lines : List Str :=
  ["header".data, "---".data,
   "|Linea|Gestor|Red|Estudio|Ejecucion Completo|Si|PI|Co".data]

/-- Two records whose priority-line and status values never co-occur,
so composing the two filters empties the view. -/
def c2Records : List Record :=
  [mkRec 1 "A" "" "N1" "X", mkRec 2 "B" "" "N2" "Y"]

/-- The five data rows of the spec example for id density: row 3 splits
into only 6 fields and is dropped. -/
def c4Lines : List Str :=
  ["header".data, "---".data,
   "|L1|M1|R1|S1|E1|D1|P1|C1".data,
   "|L2|M2|R2|S2|E2|D2|P2|C2".data,
   "|L3|M3|R3|S3|E3".data,
   "|L4|M4|R4|S4|E4|D4|P4|C4".data,
   "|L5|M5|R5|S5|E5|D5|P5|C5".data]

/-- Records realising the status multiset of the aggregation example:
counts 3, 2 and 1 with first occurrences in that order. -/
def c6Records : List Record :=
  [mkRec 1 "p" "" "" "En Ejecución",
   mkRec 2 "p" "" "" "RRI 1 Completo",
   mkRec 3 "p" "" "" "Validación",
   mkRec 4 "p" "" "" "En Ejecución",
   mkRec 5 "p" "" "" "RRI 1 Completo",
   mkRec 6 "p" "" "" "En Ejecución"]

/-- Two header lines for the malformed-row witness. -/
def c8Front : List Str := ["header".data, "---".data]

/-- A line containing the delimiter but fewer than 9 fields. -/
def c8BadLine : Str := "|only|three".data

/-- A single well-formed data row. -/
def c8Back : List Str := ["|L|M|R|S|E|D|P|C".data]

/-- A line that splits into exactly 9 stripped fields. -/
def c10Line : Str := "|A|M|R|S|St|D|P|C".data

/-- The retention condition exactly as claim C3 words it, stated on the
split-and-trimmed pieces of the line: the line contains the delimiter,
yields at least 9 fields, has non-empty priorityLine and study fields,
and its priorityLine does not begin with the dash separator marker. -/
def retainedByClaim (line : Str) : Prop :=
  '|' ∈ line ∧
  9 ≤ ((pySplit '|' line).map pyStrip).length ∧
  (mkRow ((pySplit '|' line).map pyStrip)).priority_line ≠ [] ∧
  (mkRow ((pySplit '|' line).map pyStrip)).study ≠ [] ∧
  beginsWith dashMarker
    ((mkRow ((pySplit '|' line).map pyStrip)).priority_line) = false

theorem mem_dropWhile_of_neg {p : Char → Bool} {c : Char}
    (hc : p c = false) : ∀ l : Str, c ∈ l → c ∈ l.dropWhile p := by
  intro l
  induction l with
  | nil => simp
  | cons x t ih =>
    intro h
    rw [List.dropWhile_cons]
    rcases List.mem_cons.mp h with rfl | ht
    · simp [hc]
    · by_cases hx : p x = true
      · simpa [hx] using ih ht
      · simp only [Bool.not_eq_true] at hx
        simp [hx, List.mem_cons, ht]

theorem mem_pyStrip {c : Char} (hc : isPySpace c = false) {l : Str}
    (h : c ∈ l) : c ∈ pyStrip l := by
  unfold pyStrip
  exact List.mem_reverse.mpr (mem_dropWhile_of_neg hc _
    (List.mem_reverse.mpr (mem_dropWhile_of_neg hc _ h)))

theorem strip_ne_nil_of_pipe {line : Str} (hp : '|' ∈ line) :
    pyStrip line ≠ [] :=
  List.ne_nil_of_mem (mem_pyStrip (by decide) hp)

theorem numberFrom_map_toRow :
    ∀ (rows : List Row) (n : Nat),
      (numberFrom n rows).map Record.toRow = rows := by
  intro rows
  induction rows with
  | nil => intro n; rfl
  | cons r t ih => intro n; simp [numberFrom, ih]

theorem numberFrom_length (rows : List Row) (n : Nat) :
    (numberFrom n rows).length = rows.length := by
  induction rows generalizing n with
  | nil => rfl
  | cons r t ih => simp [numberFrom, ih]

theorem numberFrom_get :
    ∀ (rows : List Row) (n k : Nat) (h : k < (numberFrom n rows).length),
      ((numberFrom n rows).get ⟨k, h⟩).id = n + k := by
  intro rows
  induction rows with
  | nil => intro n k h; simp [numberFrom] at h
  | cons r t ih =>
    intro n k h
    match k with
    | 0 => rfl
    | k + 1 =>
      have h2 : k < (numberFrom (n + 1) t).length := by
        simpa [numberFrom] using h
      have := ih (n + 1) k h2
      simpa [numberFrom, List.get, Nat.add_assoc, Nat.add_comm 1 k] using this

theorem cnt_cons (v x : Str) (xs : List Str) :
    cnt v (x :: xs) = (if x = v then 1 else 0) + cnt v xs := by
  unfold cnt
  rw [List.filter_cons]
  by_cases h : x = v <;> simp [h, Nat.add_comm]

theorem cnt_eq_zero_of_not_mem {v : Str} {xs : List Str} (h : v ∉ xs) :
    cnt v xs = 0 := by
  unfold cnt
  rw [List.length_eq_zero, List.filter_eq_nil_iff]
  intro a ha
  simp only [decide_eq_true_eq]
  exact fun hav => h (hav ▸ ha)

theorem mem_dedupFirst (v : Str) :
    ∀ xs : List Str, v ∈ dedupFirst xs ↔ v ∈ xs := by
  intro xs
  induction xs with
  | nil => simp [dedupFirst]
  | cons x t ih =>
    simp only [dedupFirst, List.mem_cons, List.mem_filter,
      decide_eq_true_eq, ih]
    constructor
    · rintro (rfl | ⟨hv, _⟩)
      · exact Or.inl rfl
      · exact Or.inr hv
    · rintro (rfl | hv)
      · exact Or.inl rfl
      · by_cases hx : v = x
        · exact Or.inl hx
        · exact Or.inr ⟨hv, hx⟩

theorem nodup_dedupFirst : ∀ xs : List Str, (dedupFirst xs).Nodup := by
  intro xs
  induction xs with
  | nil => simp [dedupFirst]
  | cons x t ih =>
    refine List.Nodup.cons ?_ (List.Nodup.filter _ ih)
    intro hx
    have hne := (List.mem_filter.mp hx).2
    simp at hne

theorem sum_split_mem (f : Str → Nat) :
    ∀ (l : List Str), l.Nodup → ∀ x ∈ l,
      (l.map f).sum
        = f x + ((l.filter (fun y => decide (y ≠ x))).map f).sum := by
  intro l
  induction l with
  | nil => intro _ x hx; simp at hx
  | cons a t ih =>
    intro hnd x hx
    have hnd2 := List.nodup_cons.mp hnd
    rcases List.mem_cons.mp hx with rfl | hxt
    · have hfil : (x :: t).filter (fun y => decide (y ≠ x)) = t := by
        rw [List.filter_cons, if_neg (by simp), List.filter_eq_self]
        intro b hb
        exact decide_eq_true (fun hbx => hnd2.1 (hbx ▸ hb))
      rw [hfil, List.map_cons, List.sum_cons]
    · have hax : a ≠ x := fun h => hnd2.1 (h ▸ hxt)
      have hrec := ih hnd2.2 x hxt
      have hfil : (a :: t).filter (fun y => decide (y ≠ x))
          = a :: t.filter (fun y => decide (y ≠ x)) := by
        rw [List.filter_cons, if_pos (decide_eq_true hax)]
      rw [hfil, List.map_cons, List.sum_cons, List.map_cons, List.sum_cons,
        hrec]
      omega

theorem sumCnt : ∀ xs : List Str,
    ((dedupFirst xs).map (fun v => cnt v xs)).sum = xs.length := by
  intro xs
  induction xs with
  | nil => rfl
  | cons x t ih =>
    have hc : (((dedupFirst t).filter (fun y => decide (y ≠ x))).map
        (fun v => cnt v (x :: t))).sum
        = (((dedupFirst t).filter (fun y => decide (y ≠ x))).map
          (fun v => cnt v t)).sum := by
      congr 1
      apply List.map_congr_left
      intro v hv
      have hvx : v ≠ x := of_decide_eq_true (List.mem_filter.mp hv).2
      rw [cnt_cons, if_neg (fun h => hvx h.symm)]
      exact Nat.zero_add _
    have hhead : cnt x (x :: t) = 1 + cnt x t := by
      rw [cnt_cons, if_pos rfl]
    rw [show dedupFirst (x :: t)
        = x :: (dedupFirst t).filter (fun y => decide (y ≠ x)) from rfl]
    rw [List.map_cons, List.sum_cons, hhead, hc, List.length_cons]
    by_cases hx : x ∈ t
    · have hsplit := sum_split_mem (fun v => cnt v t) (dedupFirst t)
        (nodup_dedupFirst t) x ((mem_dedupFirst x t).mpr hx)
      simp only [] at hsplit
      rw [ih] at hsplit
      omega
    · have hfil : (dedupFirst t).filter (fun y => decide (y ≠ x))
          = dedupFirst t := by
        rw [List.filter_eq_self]
        intro b hb
        exact decide_eq_true
          (fun hbx => hx (hbx ▸ (mem_dedupFirst b t).mp hb))
      rw [hfil, ih, cnt_eq_zero_of_not_mem hx]
      omega

theorem map_fst_firstSeenCounts (xs : List Str) :
    (firstSeenCounts xs).map Prod.fst = dedupFirst xs := by
  unfold firstSeenCounts
  rw [List.map_map]
  exact List.map_id _

theorem mem_value_counts (xs : List Str) (v : Str) (n : Nat) :
    (v, n) ∈ value_counts xs ↔ v ∈ xs ∧ n = cnt v xs := by
  unfold value_counts
  rw [(List.perm_insertionSort countGE (firstSeenCounts xs)).mem_iff]
  unfold firstSeenCounts
  simp only [List.mem_map, Prod.mk.injEq]
  constructor
  · rintro ⟨u, hu, rfl, rfl⟩
    exact ⟨(mem_dedupFirst u xs).mp hu, rfl⟩
  · rintro ⟨hv, rfl⟩
    exact ⟨v, (mem_dedupFirst v xs).mpr hv, rfl, rfl⟩

theorem sum_snd_value_counts (xs : List Str) :
    ((value_counts xs).map Prod.snd).sum = xs.length := by
  unfold value_counts
  rw [((List.perm_insertionSort countGE (firstSeenCounts xs)).map
    Prod.snd).sum_eq]
  unfold firstSeenCounts
  rw [List.map_map]
  exact sumCnt xs

theorem nodup_keys_value_counts (xs : List Str) :
    ((value_counts xs).map Prod.fst).Nodup := by
  unfold value_counts
  rw [((List.perm_insertionSort countGE (firstSeenCounts xs)).map
    Prod.fst).nodup_iff]
  rw [map_fst_firstSeenCounts]
  exact nodup_dedupFirst xs

theorem applyEq_sentinel (field : Record → Str) (s : Str)
    (rs : List Record) : applyEq field s s rs = rs := by
  simp [applyEq]

theorem applyEq_as_filter (field : Record → Str) (sentinel sel : Str)
    (rs : List Record) :
    applyEq field sentinel sel rs
      = rs.filter (fun r =>
          decide (sel = sentinel) || decide (field r = sel)) := by
  unfold applyEq
  by_cases h : sel = sentinel
  · simp [h]
  · simp [h]

/-- Claim C1, counterexample: the file c1Lines parses to exactly one
retained record, whose status Ejecucion Completo matches both the
Active and the Completed pattern set, so the single record is counted
in the Active-projects metric and in the Completed-projects metric at
the same time - the classification is not mutually exclusive. -/
theorem c1_counterexample :
    (load_data c1Lines).length = 1 ∧
    active_projects (load_data c1Lines) = 1 ∧
    completed_projects (load_data c1Lines) = 1 := by
  refine ⟨by decide, by decide, by decide⟩

/-- Claim C1 as amended: the coarse classification is total - every
record falls in Active, Completed or Other, where Other holds exactly
the statuses matching neither pattern set - but Active and Completed
are independent pattern matches with no priority order, so the three
bucket counts satisfy active + completed + other = total + both, where
both counts the records whose status matches both pattern sets; a
record matching both is counted in both metrics. -/
theorem c1_amended : ∀ rs : List Record,
    (∀ s : Str, statusOther s = true
      ↔ (matchesActive s = false ∧ matchesCompleted s = false)) ∧
    active_projects rs + completed_projects rs
        + (rs.filter (fun r => statusOther r.status)).length
      = rs.length
        + (rs.filter (fun r =>
            matchesActive r.status && matchesCompleted r.status)).length := by
  intro rs
  constructor
  · intro s
    unfold statusOther
    cases ha : matchesActive s <;> cases hc : matchesCompleted s <;> simp
  · induction rs with
    | nil => rfl
    | cons r t ih =>
      unfold active_projects completed_projects statusOther at *
      simp only [List.filter_cons, List.length_cons]
      cases ha : matchesActive r.status <;>
        cases hc : matchesCompleted r.status <;>
        simp only [ha, hc, Bool.not_false, Bool.not_true, Bool.and_self,
          Bool.and_false, Bool.false_and, Bool.and_true, Bool.true_and,
          if_true, if_false, List.length_cons, Bool.false_eq_true,
          Bool.true_eq_false, decide_True, decide_False, ite_true,
          ite_false, List.length_cons] <;>
        omega

/-- Claim C2: on a nonempty base set, selecting the priority line A and
the status Y - two values that never co-occur in c2Records - empties
the filtered view, and create_metrics then divides by len(df) = 0, so
the percentage metrics raise ZeroDivisionError instead of reporting a
defined value. -/
theorem c2_crash :
    c2Records ≠ [] ∧
    applyFilters ("A".data) ("Y".data) todas c2Records = [] ∧
    main_view c2Records ("A".data) ("Y".data) todas
      = ViewOutcome.zeroDivCrash := by
  refine ⟨by decide, by decide, by decide⟩

/-- Claim C4: the id values of the parsed record sequence are dense and
1-based in file order among retained rows - the k-th retained record
has id k + 1 for 0-based k - and dropped rows do not consume an id. -/
theorem c4_ids : ∀ (lines : List Str) (k : Nat)
    (h : k < (load_data lines).length),
    ((load_data lines).get ⟨k, h⟩).id = k + 1 := by
  intro lines k h
  unfold load_data at h ⊢
  rw [numberFrom_get _ 1 k h, Nat.add_comm]

/-- Claim C4, witness: on the spec example file - five data rows of
which row 3 splits into only 6 fields - the parser yields exactly 4
records and the last one (0-based index 3) has id 4. -/
theorem c4_ids_witness :
    (load_data c4Lines).length = 4 ∧
    ((load_data c4Lines).get ⟨3, by decide⟩).id = 4 :=
  ⟨by decide, c4_ids c4Lines 3 (by decide)⟩

/-- Claim C10: when a retained line splits into exactly 9 trimmed
fields, the parser still constructs the record and the tenth positional
attribute national_network defaults to the empty string. -/
theorem c10_default : ∀ (line : Str) (row : Row),
    parseLine line = some row →
    ((pySplit '|' line).map pyStrip).length = 9 →
    row.national_network = [] := by
  intro line row hsome h9
  unfold parseLine at hsome
  split at hsome
  · split at hsome
    · split at hsome
      · have hrow : mkRow ((pySplit '|' line).map pyStrip) = row :=
          Option.some.inj hsome
        rw [← hrow]
        have h10 : ((pySplit '|' line).map pyStrip).getD 9 [] = [] := by
          apply List.getD_eq_default
          omega
        show pyStrip (((pySplit '|' line).map pyStrip).getD 9 []) = []
        rw [h10]
        rfl
      · exact absurd hsome (by simp)
    · exact absurd hsome (by simp)
  · exact absurd hsome (by simp)

/-- Claim C10, witness: a concrete 9-field line is retained and its
record carries the empty national_network. -/
theorem c10_default_witness :
    ∃ row : Row, parseLine c10Line = some row ∧ row.national_network = [] :=
  ⟨mkRow ((pySplit '|' c10Line).map pyStrip), by decide,
    c10_default c10Line _ (by decide) (by decide)⟩

/-- Claim C3: the parser skips the first 2 lines; a subsequent line
yields a record exactly when it contains the pipe delimiter, splits
into at least 9 trimmed fields with non-empty priorityLine and study,
and its priorityLine does not begin with the dash separator marker;
all other lines are silently skipped and the record sequence is the
in-order filterMap of the retained rows. -/
theorem c3_retention : ∀ lines : List Str,
    (load_data lines).map Record.toRow = (lines.drop 2).filterMap parseLine ∧
    ∀ line : Str, ((parseLine line).isSome = true ↔ retainedByClaim line) := by
  intro lines
  refine ⟨numberFrom_map_toRow _ 1, ?_⟩
  intro line
  by_cases hp : '|' ∈ line
  · have hs : pyStrip line ≠ [] := strip_ne_nil_of_pipe hp
    unfold parseLine retainedByClaim
    rw [if_pos ⟨hs, hp⟩]
    by_cases h9 : 9 ≤ ((pySplit '|' line).map pyStrip).length
    · rw [if_pos h9]
      by_cases hr : (mkRow ((pySplit '|' line).map pyStrip)).priority_line ≠ [] ∧
          (mkRow ((pySplit '|' line).map pyStrip)).study ≠ [] ∧
          beginsWith dashMarker
            ((mkRow ((pySplit '|' line).map pyStrip)).priority_line) = false
      · rw [if_pos hr]
        simp only [Option.isSome_some, true_iff]
        exact ⟨hp, h9, hr.1, hr.2.1, hr.2.2⟩
      · rw [if_neg hr]
        simp only [Option.isSome_none, Bool.false_eq_true, false_iff]
        intro hclaim
        exact hr ⟨hclaim.2.2.1, hclaim.2.2.2.1, hclaim.2.2.2.2⟩
    · rw [if_neg h9]
      simp only [Option.isSome_none, Bool.false_eq_true, false_iff]
      intro hclaim
      exact h9 hclaim.2.1
  · unfold parseLine retainedByClaim
    rw [if_neg (fun hand => hp hand.2)]
    simp only [Option.isSome_none, Bool.false_eq_true, false_iff]
    intro hclaim
    exact hp hclaim.1

/-- Claim C5: the sidebar filters of main compose to exactly the
subsequence of the base set satisfying every active constraint; any
two equality constraints commute - applying A then B equals applying B
then A, on any fields and selections - and a constraint whose
selection equals its sentinel imposes no restriction, so the all-
sentinel selection returns the base set unchanged. -/
theorem c5_filters : ∀ (rs : List Record) (selP selS selN : Str),
    applyFilters selP selS selN rs
      = rs.filter (fun r =>
          (decide (selP = todas) || decide (r.priority_line = selP))
          && (decide (selS = todos) || decide (r.status = selS))
          && (decide (selN = todas) || decide (r.network = selN))) ∧
    (∀ (f g : Record → Str) (sf vf sg vg : Str),
      applyEq f sf vf (applyEq g sg vg rs)
        = applyEq g sg vg (applyEq f sf vf rs)) ∧
    (∀ (f : Record → Str) (s : Str), applyEq f s s rs = rs) ∧
    applyFilters todas todos todas rs = rs := by
  intro rs selP selS selN
  refine ⟨?_, ?_, fun f s => applyEq_sentinel f s rs, ?_⟩
  · unfold applyFilters
    rw [applyEq_as_filter, applyEq_as_filter, applyEq_as_filter,
      List.filter_filter, List.filter_filter]
    apply List.filter_congr
    intro r _
    cases decide (selP = todas) <;> cases decide (r.priority_line = selP) <;>
      cases decide (selS = todos) <;> cases decide (r.status = selS) <;>
      cases decide (selN = todas) <;> cases decide (r.network = selN) <;> rfl
  · intro f g sf vf sg vg
    rw [applyEq_as_filter, applyEq_as_filter, applyEq_as_filter,
      applyEq_as_filter, List.filter_filter, List.filter_filter]
    apply List.filter_congr
    intro r _
    exact Bool.and_comm _ _
  · unfold applyFilters
    rw [applyEq_sentinel, applyEq_sentinel, applyEq_sentinel]

/-- Claim C6: value_counts returns each distinct value of the grouped
field exactly once with its count, ordered by descending count with
ties kept in first-seen order, and on a status multiset with counts 3,
2, 1 the status aggregation yields exactly the claimed ordered
output. -/
theorem c6_aggregation :
    (∀ xs : List Str,
      List.Pairwise countGE (value_counts xs) ∧
      ((value_counts xs).map Prod.fst).Nodup ∧
      ∀ (v : Str) (n : Nat),
        ((v, n) ∈ value_counts xs ↔ v ∈ xs ∧ n = cnt v xs)) ∧
    status_counts c6Records
      = [("En Ejecución".data, 3), ("RRI 1 Completo".data, 2),
         ("Validación".data, 1)] := by
  constructor
  · intro xs
    exact ⟨List.sorted_insertionSort countGE (firstSeenCounts xs),
      nodup_keys_value_counts xs, mem_value_counts xs⟩
  · decide

/-- Claim C7: the by-manager aggregation draws on exactly the records
whose manager value is non-empty and free of the case-insensitive
redaction token xxxxx; its counts sum to the number of such valid
records, and the value xxxxx (reservado) is excluded from numerator
and denominator alike. -/
theorem c7_managers : ∀ rs : List Record,
    ((manager_counts rs).map Prod.snd).sum
      = (rs.filter (fun r => validManager r.manager)).length ∧
    (∀ v : Str, (∃ n, (v, n) ∈ manager_counts rs)
      ↔ ∃ r, r ∈ rs ∧ r.manager = v ∧ validManager r.manager = true) ∧
    validManager ("xxxxx (reservado)".data) = false := by
  intro rs
  refine ⟨?_, ?_, by decide⟩
  · unfold manager_counts
    rw [sum_snd_value_counts, List.length_map]
  · intro v
    unfold manager_counts
    constructor
    · rintro ⟨n, hn⟩
      have hmem := ((mem_value_counts _ v n).mp hn).1
      rcases List.mem_map.mp hmem with ⟨r, hr, hrm⟩
      rcases List.mem_filter.mp hr with ⟨hrs, hval⟩
      exact ⟨r, hrs, hrm, hval⟩
    · rintro ⟨r, hrs, hrm, hval⟩
      refine ⟨cnt v _, (mem_value_counts _ v _).mpr ⟨?_, rfl⟩⟩
      exact List.mem_map.mpr ⟨r, List.mem_filter.mpr ⟨hrs, hval⟩, hrm⟩

/-- Claim C8: an unreadable data source is recovered at the boundary -
the loader hands back an empty record set together with a user-visible
notice instead of propagating the failure - while a readable source is
parsed without any notice; and a malformed row never causes an error:
it is silently dropped, leaving the remaining records unchanged. -/
theorem c8_degradation :
    load_data_checked none = ([], true) ∧
    (∀ lines : List Str,
      load_data_checked (some lines) = (load_data lines, false)) ∧
    (∀ (front back : List Str) (line : Str), 2 ≤ front.length →
      parseLine line = none →
      load_data (front ++ line :: back) = load_data (front ++ back)) := by
  refine ⟨rfl, fun _ => rfl, ?_⟩
  intro front back line h2 hnone
  unfold load_data
  rw [List.drop_append_of_le_length h2, List.drop_append_of_le_length h2,
    List.filterMap_append, List.filterMap_append,
    List.filterMap_cons_none hnone]

/-- Claim C8, witness: dropping a concrete malformed line (it has the
delimiter but only three fields) from between the headers and a valid
row leaves the parsed records unchanged. -/
theorem c8_degradation_witness :
    2 ≤ c8Front.length ∧ parseLine c8BadLine = none ∧
    load_data (c8Front ++ c8BadLine :: c8Back)
      = load_data (c8Front ++ c8Back) :=
  ⟨by decide, by decide,
    c8_degradation.2.2 c8Front c8Back c8BadLine (by decide) (by decide)⟩

theorem kanban_filterMap_eq_map (rs : List Record) :
    ∀ l : List Str, (∀ s ∈ l, ∃ r ∈ rs, r.status = s) →
      (l.filterMap (fun s =>
        if (rs.filter (fun r => decide (r.status = s))).isEmpty then none
        else some (s, rs.filter (fun r => decide (r.status = s)))))
      = l.map (fun s => (s, rs.filter (fun r => decide (r.status = s)))) := by
  intro l
  induction l with
  | nil => intro _; rfl
  | cons s t ih =>
    intro h
    rcases h s (List.mem_cons_self s t) with ⟨r, hr, hrs⟩
    have hmem : r ∈ rs.filter (fun r => decide (r.status = s)) :=
      List.mem_filter.mpr ⟨hr, decide_eq_true hrs⟩
    have hne : (rs.filter (fun r => decide (r.status = s))).isEmpty = false := by
      cases hE : (rs.filter (fun r => decide (r.status = s))).isEmpty
      · rfl
      · exact absurd (List.isEmpty_iff.mp hE) (List.ne_nil_of_mem hmem)
    simp only [List.filterMap_cons, hne, Bool.false_eq_true, if_false]
    rw [List.map_cons, ih (fun u hu => h u (List.mem_cons_of_mem s hu))]

/-- Claim C9: the kanban board groups by exact match on the literal
status values: the groups are keyed, without repetition, by the
distinct status strings observed in the input, each group holds
exactly the records carrying its status, every record appears in the
group of its own status, and the group sizes sum to the number of
input records - nothing is dropped or double-counted. -/
theorem c9_kanban : ∀ rs : List Record,
    create_kanban_board rs
      = (dedupFirst (rs.map (fun r => r.status))).map
          (fun s => (s, rs.filter (fun r => decide (r.status = s)))) ∧
    (∀ (s : Str) (g : List Record), (s, g) ∈ create_kanban_board rs →
      g = rs.filter (fun r => decide (r.status = s)) ∧
      ∀ r ∈ g, r.status = s) ∧
    (∀ r ∈ rs, r.status ∈ (create_kanban_board rs).map Prod.fst) ∧
    ((create_kanban_board rs).map Prod.fst).Nodup ∧
    ((create_kanban_board rs).map (fun p => p.2.length)).sum
      = rs.length := by
  intro rs
  have hboard : create_kanban_board rs
      = (dedupFirst (rs.map (fun r => r.status))).map
          (fun s => (s, rs.filter (fun r => decide (r.status = s)))) := by
    unfold create_kanban_board
    apply kanban_filterMap_eq_map
    intro s hs
    rcases List.mem_map.mp ((mem_dedupFirst s _).mp hs) with ⟨r, hr, hrs⟩
    exact ⟨r, hr, hrs⟩
  have hfst : (create_kanban_board rs).map Prod.fst
      = dedupFirst (rs.map (fun r => r.status)) := by
    rw [hboard, List.map_map]
    exact List.map_id _
  refine ⟨hboard, ?_, ?_, ?_, ?_⟩
  · intro s g hmem
    rw [hboard] at hmem
    rcases List.mem_map.mp hmem with ⟨u, _, hequ⟩
    have h1 : u = s := congrArg Prod.fst hequ
    have h2 : rs.filter (fun r => decide (r.status = u)) = g :=
      congrArg Prod.snd hequ
    subst h1
    rw [← h2]
    exact ⟨rfl, fun r hrg => of_decide_eq_true (List.mem_filter.mp hrg).2⟩
  · intro r hr
    rw [hfst]
    exact (mem_dedupFirst _ _).mpr (List.mem_map.mpr ⟨r, hr, rfl⟩)
  · rw [hfst]
    exact nodup_dedupFirst _
  · rw [hboard, List.map_map]
    have hpt : ∀ s : Str,
        (rs.filter (fun r => decide (r.status = s))).length
          = cnt s (rs.map (fun r => r.status)) := by
      intro s
      unfold cnt
      rw [List.filter_map, List.length_map]
      rfl
    have hcongr : (dedupFirst (rs.map (fun r => r.status))).map
          ((fun p : Str × List Record => p.2.length)
            ∘ (fun s => (s, rs.filter (fun r => decide (r.status = s)))))
        = (dedupFirst (rs.map (fun r => r.status))).map
            (fun v => cnt v (rs.map (fun r => r.status))) := by
      apply List.map_congr_left
      intro s _
      exact hpt s
    rw [hcongr, sumCnt, List.length_map]

/-- Claim C9, witness: on a one-record input the board contains the
column keyed by that record's status. -/
theorem c9_kanban_witness :
    ("X".data) ∈ (create_kanban_board [mkRec 1 "p" "" "" "X"]).map
      Prod.fst :=
  (c9_kanban [mkRec 1 "p" "" "" "X"]).2.2.1 (mkRec 1 "p" "" "" "X")
    (by decide)

end Dashboard
